import Mathlib

/-!
Verification development for the PapperMate contract-parsing core.

This file gives a shallow embedding, in Lean 4, of the contract parsing and
entity-reconciliation pipeline of the PapperMate repository:

* `pappermate/processing/entity_extractor.py`
  (`_normalize_entity_text`, `_deduplicate_entities`),
* `pappermate/services/contract_parser.py`
  (`_parse_amount`, `_extract_dates`, `_extract_sections_from_markdown`,
   `_create_document_model`, `_create_contract_model`, `_calculate_confidence`),
* `pappermate/validation/schema.py`
  (`_validate_business_rules`, `validate_contract`),
* `pappermate/models/document.py` (the `Document` and `Contract` records).

Python strings are embedded as `String`/`List Char`, Python `float` values as
`ℚ`, Python dicts as insertion-ordered association lists with update-in-place
semantics, and fallible operations as `Option`.  The regular expressions used
by the source are embedded as hand-rolled backtracking matchers that follow
Python `re` semantics (greedy bounded quantifiers with backtracking,
`finditer` scanning left to right and resuming after each match).  External
collaborators (the `dateutil` date parser, Python's process-seeded string
`hash`, and the wall clock) are passed in as explicit parameters.
-/

/-! ### Python character and string primitives -/

/-- Python `str.isspace` / the regex class `\s` restricted to ASCII:
space, tab, newline, carriage return, vertical tab, form feed. -/
def pyIsSpace (c : Char) : Bool :=
  c = ' ' || c = '\t' || c = '\n' || c = '\r' || c = '\x0b' || c = '\x0c'

/-- Python `str.lower` on a single ASCII character. -/
def pyLowerChar (c : Char) : Char :=
  if 'A' ≤ c && c ≤ 'Z' then Char.ofNat (c.toNat + 32) else c

/-- Python `str.lower` (ASCII fragment, which covers all inputs used here). -/
def pyLowerList (cs : List Char) : List Char :=
  cs.map pyLowerChar

/-- Python `str.strip()`: remove leading and trailing whitespace. -/
def pyStripList (cs : List Char) : List Char :=
  ((cs.dropWhile pyIsSpace).reverse.dropWhile pyIsSpace).reverse

/-- Python `str.lower` on a `String`. -/
def pyLower (s : String) : String :=
  String.mk (pyLowerList s.toList)

/-- Python `str.strip()` on a `String`. -/
def pyStrip (s : String) : String :=
  String.mk (pyStripList s.toList)

/-- Value of a list of decimal digit characters, most significant first
(Python `int` on a digit string). -/
def digitsToNat (cs : List Char) : ℕ :=
  cs.foldl (fun n c => 10 * n + (c.toNat - 48)) 0

/-! ### Python `float(...)` on decimal strings

`float` applied to a string strips surrounding whitespace and accepts an
optional sign, an integer part and/or a fractional part (at least one digit
overall), and an optional exponent; anything else raises `ValueError`,
embedded here as `none`.  The special spellings `inf`/`nan`, underscores in
numeric literals, and non-ASCII digits are not representable as finite
rationals or never occur in this pipeline's inputs and are likewise mapped
to `none`. -/

/-- The syntactic pieces of a successfully parsed Python float literal. -/
structure FloatParts where
  negative : Bool
  intPart : List Char
  fracPart : List Char
  expNeg : Bool
  expDigits : List Char
deriving DecidableEq, Repr

/-- Parse the exponent suffix (`e`/`E`, optional sign, at least one digit),
which must consume the rest of the input. -/
def parseExpSuffix (cs : List Char) : Option (Bool × List Char) :=
  match cs with
  | [] => some (false, [])
  | e :: r =>
    if e = 'e' || e = 'E' then
      let (neg, r1) : Bool × List Char :=
        match r with
        | '+' :: r2 => (false, r2)
        | '-' :: r2 => (true, r2)
        | r2 => (false, r2)
      let (ds, r3) := r1.span Char.isDigit
      if ds = [] then none else if r3 = [] then some (neg, ds) else none
    else none

/-- Parse a Python float literal into its syntactic parts. -/
def pyFloatParse (cs : List Char) : Option FloatParts :=
  let cs := (cs.dropWhile pyIsSpace).reverse.dropWhile pyIsSpace |>.reverse
  let (neg, r0) : Bool × List Char :=
    match cs with
    | '+' :: r => (false, r)
    | '-' :: r => (true, r)
    | r => (false, r)
  let (ip, r1) := r0.span Char.isDigit
  match r1 with
  | '.' :: r2 =>
    let (fp, r3) := r2.span Char.isDigit
    if ip = [] && fp = [] then none
    else (parseExpSuffix r3).map fun (en, eds) =>
      ⟨neg, ip, fp, en, eds⟩
  | r1 =>
    if ip = [] then none
    else (parseExpSuffix r1).map fun (en, eds) =>
      ⟨neg, ip, fp0, en, eds⟩
  where fp0 : List Char := []

/-- The rational value denoted by parsed float parts. -/
def partsVal (p : FloatParts) : ℚ :=
  let sign : ℚ := if p.negative then -1 else 1
  let base : ℚ := (digitsToNat p.intPart : ℚ) +
    (digitsToNat p.fracPart : ℚ) / (10 : ℚ) ^ p.fracPart.length
  let e : ℚ := if p.expNeg then ((10 : ℚ) ^ digitsToNat p.expDigits)⁻¹
    else (10 : ℚ) ^ digitsToNat p.expDigits
  sign * base * e

/-- Python `float(s)` on the decimal fragment described above. -/
def pyFloat (cs : List Char) : Option ℚ :=
  (pyFloatParse cs).map partsVal

/-! ### `ContractParser._parse_amount` (contract_parser.py, lines 467-483) -/

/-- Characters removed by `re.sub(r'[R$US$USD€£\s]', '', amount_str)`:
the character class is the set {R, $, U, S, D, €, £} together with
whitespace. -/
def isCurrencyOrSpace (c : Char) : Bool :=
  c = 'R' || c = '$' || c = 'U' || c = 'S' || c = 'D' || c = '€' || c = '£' ||
    pyIsSpace c

/-- The cleaned amount string: currency symbols and whitespace removed. -/
def cleanAmount (cs : List Char) : List Char :=
  cs.filter (fun c => !(isCurrencyOrSpace c))

/-- The separator-normalisation step of `_parse_amount`: if both `.` and `,`
occur, drop dots (thousands separators) and turn commas into decimal dots;
if only `,` occurs, turn commas into dots; otherwise leave unchanged. -/
def normalizeSeparators (cs : List Char) : List Char :=
  if cs.contains ',' && cs.contains '.' then
    (cs.filter (fun c => c ≠ '.')).map (fun c => if c = ',' then '.' else c)
  else if cs.contains ',' then
    cs.map (fun c => if c = ',' then '.' else c)
  else cs

/-- `ContractParser._parse_amount`: strip currency symbols and spaces,
normalise separators, and parse with `float`, returning `None` on failure. -/
def parse_amount (s : String) : Option ℚ :=
  pyFloat (normalizeSeparators (cleanAmount s.toList))

example : cleanAmount "R$ 150.000,00".toList = "150.000,00".toList := by decide
example : normalizeSeparators "150.000,00".toList = "150000.00".toList := by
  decide
example : pyFloatParse "150000.00".toList =
    some ⟨false, "150000".toList, "00".toList, false, []⟩ := by decide

/-! ### Dates

Python `datetime` values built by this pipeline always have zero time-of-day,
so they are embedded at date resolution; `datetime` comparison is
lexicographic on the components. -/

/-- A Python `datetime` as built by the pipeline (midnight, no timezone). -/
structure PyDate where
  year : ℕ
  month : ℕ
  day : ℕ
deriving DecidableEq, Repr

/-- Lexicographic `<=` on datetimes, as Python compares them. -/
def PyDate.le (a b : PyDate) : Bool :=
  a.year < b.year ||
    (a.year = b.year &&
      (a.month < b.month || (a.month = b.month && a.day ≤ b.day)))

/-- Decimal digits of `n` padded with leading zeros to width `w`
(`strftime` zero-padded fields). -/
def padDigits (w n : ℕ) : List Char :=
  let ds := Nat.toDigits 10 n
  List.replicate (w - ds.length) '0' ++ ds

/-- `strftime('%Y-%m-%d')`. -/
def isoFormat (d : PyDate) : String :=
  String.mk (padDigits 4 d.year ++ '-' :: padDigits 2 d.month ++
    '-' :: padDigits 2 d.day)

/-! ### `Entity` and `ContractEntityExtractor._normalize_entity_text`
(entity_extractor.py, lines 384-407) -/

/-- The `Entity` dataclass of `entity_extractor.py` (its `metadata` dict is
irrelevant to the claims and embedded as a string association list). -/
structure Entity where
  text : String
  entity_type : String
  start_pos : ℤ
  end_pos : ℤ
  confidence : ℚ
  metadata : List (String × String) := []
deriving DecidableEq, Repr

/-- The date-typed entity kinds treated specially by normalisation. -/
def dateEntityTypes : List String :=
  ["START_DATE", "END_DATE", "SIGNATURE_DATE", "EFFECTIVE_DATE",
    "EXPIRATION_DATE"]

/-- Characters kept by `re.sub(r'[^Vdt .,]+', '', text)`: the complemented
class contains, literally, `V`, `d`, `t`, space, dot and comma, so every
other character — including every digit — is removed. -/
def amountKeptChar (c : Char) : Bool :=
  c = 'V' || c = 'd' || c = 't' || c = ' ' || c = '.' || c = ','

/-- Model of the external builtin `str(float(x))` (shortest-roundtrip decimal
rendering).  In this pipeline it is only applied when `float` succeeded on a
digit-free string, which never happens, so no claim depends on its exact
output. -/
def floatRepr (q : ℚ) : String :=
  if q.den = 1 then toString q.num ++ ".0"
  else toString q.num ++ "/" ++ toString q.den

/-- `ContractEntityExtractor._normalize_entity_text`.  The third-party
`dateutil.parser.parse` is an external collaborator and is passed in as the
oracle `dateParse` (`none` models a parse exception).  Note that in the
`AMOUNT` branch the local variable `text` is reassigned before the `try`
block, so the fallback returns the mutilated text, not the original. -/
def normalize_entity_text (dateParse : String → Option PyDate)
    (e : Entity) : String :=
  let text := pyStrip (pyLower e.text)
  if e.entity_type ∈ dateEntityTypes then
    match dateParse text with
    | some d => isoFormat d
    | none => text
  else if e.entity_type = "AMOUNT" then
    let t1 := text.toList.filter amountKeptChar
    let t2 := (t1.filter (fun c => c ≠ '.')).map
      (fun c => if c = ',' then '.' else c)
    match pyFloat t2 with
    | some q => floatRepr q
    | none => String.mk t2
  else text

/-! ### `ContractEntityExtractor._deduplicate_entities`
(entity_extractor.py, lines 408-433) -/

/-- The deduplication key `(normalized_text, entity_type)`. -/
def entityKey (dateParse : String → Option PyDate) (e : Entity) :
    String × String :=
  (normalize_entity_text dateParse e, e.entity_type)

/-- The sort relation used by `entities.sort(key=..., reverse=True)`:
confidence descending.  Mathlib's `insertionSort` with this relation is
stable, matching Python's stable sort. -/
def confDesc (a b : Entity) : Prop :=
  b.confidence ≤ a.confidence

instance : DecidableRel confDesc :=
  fun a b => inferInstanceAs (Decidable (b.confidence ≤ a.confidence))

instance : IsTotal Entity confDesc :=
  ⟨fun a b => le_total b.confidence a.confidence⟩

instance : IsTrans Entity confDesc :=
  ⟨fun _ _ _ h1 h2 => le_trans h2 h1⟩

/-- The single pass over the sorted candidate list: keep the first candidate
seen for each key, skip later ones. -/
def dedupLoop (dateParse : String → Option PyDate) :
    List Entity → List (String × String) → List Entity
  | [], _ => []
  | e :: rest, seen =>
    let key := entityKey dateParse e
    if key ∈ seen then dedupLoop dateParse rest seen
    else e :: dedupLoop dateParse rest (key :: seen)

/-- `ContractEntityExtractor._deduplicate_entities`: sort by confidence
descending (stable) and keep the first candidate per key.  The
`if not entities: return []` guard agrees with the general path on `[]`. -/
def deduplicate_entities (dateParse : String → Option PyDate)
    (entities : List Entity) : List Entity :=
  dedupLoop dateParse (List.insertionSort confDesc entities) []

/-! ### Regex machinery for `_extract_dates`
(contract_parser.py, lines 33-37 and 377-415)

Each of the three date patterns is embedded as a matcher that, applied at a
position, returns the capture groups and total consumed length of the match
Python `re` would produce there, following `re`'s leftmost match with greedy
bounded quantifiers and backtracking. -/

/-- Match exactly `n` digit characters. -/
def takeDigitsExact : ℕ → List Char → Option (List Char × List Char)
  | 0, r => some ([], r)
  | Nat.succ n, c :: r =>
    if c.isDigit then
      (takeDigitsExact n r).map (fun p => (c :: p.1, p.2))
    else none
  | Nat.succ _, [] => none

/-- Match one literal character. -/
def expectChar (c : Char) : List Char → Option (List Char)
  | x :: r => if x = c then some r else none
  | [] => none

/-- Match a literal word case-insensitively (`re.IGNORECASE`); the word is
given lowercased. -/
def matchLit : List Char → List Char → Option (List Char)
  | [], r => some r
  | l :: ls, c :: r => if pyLowerChar c = l then matchLit ls r else none
  | _ :: _, [] => none

/-- One attempt at `(\d{1,2})/(\d{1,2})/(\d{4})` with the two bounded
quantifiers fixed at widths `nd` and `nm`. -/
def p1try (nd nm : ℕ) (cs : List Char) : Option (List (List Char) × ℕ) := do
  let (ds, r1) ← takeDigitsExact nd cs
  let r2 ← expectChar '/' r1
  let (ms, r3) ← takeDigitsExact nm r2
  let r4 ← expectChar '/' r3
  let (ys, _) ← takeDigitsExact 4 r4
  some ([ds, ms, ys], nd + 1 + nm + 1 + 4)

/-- `(\d{1,2})/(\d{1,2})/(\d{4})`: greedy widths, leftmost quantifier
backtracks last. -/
def matchP1 (cs : List Char) : Option (List (List Char) × ℕ) :=
  p1try 2 2 cs <|> p1try 2 1 cs <|> p1try 1 2 cs <|> p1try 1 1 cs

/-- One attempt at `(\d{4})-(\d{1,2})-(\d{1,2})` with the two bounded
quantifiers fixed at widths `nm` and `nd`. -/
def p2try (nm nd : ℕ) (cs : List Char) : Option (List (List Char) × ℕ) := do
  let (ys, r1) ← takeDigitsExact 4 cs
  let r2 ← expectChar '-' r1
  let (ms, r3) ← takeDigitsExact nm r2
  let r4 ← expectChar '-' r3
  let (ds, _) ← takeDigitsExact nd r4
  some ([ys, ms, ds], 4 + 1 + nm + 1 + nd)

/-- `(\d{4})-(\d{1,2})-(\d{1,2})`. -/
def matchP2 (cs : List Char) : Option (List (List Char) × ℕ) :=
  p2try 2 2 cs <|> p2try 2 1 cs <|> p2try 1 2 cs <|> p2try 1 1 cs

/-- The month-name alternatives of the third date pattern, in source order. -/
def monthNames : List (List Char) :=
  ["jan", "fev", "mar", "abr", "mai", "jun", "jul", "ago", "set", "out",
    "nov", "dez"].map String.toList

/-- Match one of the month-name alternatives (case-insensitively); all
alternatives have length 3. -/
def matchAnyMonth (cs : List Char) : Option (List Char) :=
  monthNames.foldr (fun m acc => matchLit m cs <|> acc) none

/-- ASCII letter test for `[a-z]*` under `re.IGNORECASE`. -/
def isAsciiAlpha (c : Char) : Bool :=
  ('a' ≤ c && c ≤ 'z') || ('A' ≤ c && c ≤ 'Z')

/-- The tail of the third pattern after the optional `de`:
`(?:jan|…|dez)[a-z]*\s+(\d{4})`.  Returns consumed length and the year
digits.  The maximal-munch `[a-z]*` and `\s+` need no backtracking because
the follow sets are disjoint. -/
def p3tail (cs : List Char) : Option (ℕ × List Char) := do
  let r1 ← matchAnyMonth cs
  let (ls, r2) := r1.span isAsciiAlpha
  let (w2, r3) := r2.span pyIsSpace
  if w2 = [] then none else
  let (ys, _) ← takeDigitsExact 4 r3
  some (3 + ls.length + w2.length + 4, ys)

/-- `(?:de\s+)?` followed by the tail; the greedy optional group is tried
first and dropped on failure of the rest. -/
def p3opt (cs : List Char) : Option (ℕ × List Char) :=
  (do
    let r1 ← matchLit ['d', 'e'] cs
    let (w, r2) := r1.span pyIsSpace
    if w = [] then none else
    let (tc, ys) ← p3tail r2
    some (2 + w.length + tc, ys)) <|>
  p3tail cs

/-- One attempt at the third pattern with the day quantifier fixed at width
`nd`. -/
def p3try (nd : ℕ) (cs : List Char) : Option (List (List Char) × ℕ) := do
  let (ds, r1) ← takeDigitsExact nd cs
  let (w1, r2) := r1.span pyIsSpace
  if w1 = [] then none else
  let (tc, ys) ← p3opt r2
  some ([ds, ys], nd + w1.length + tc)

/-- `(\d{1,2})\s+(?:de\s+)?(?:jan|…|dez)[a-z]*\s+(\d{4})` with
`re.IGNORECASE`.  Note: this pattern has exactly two capture groups. -/
def matchP3 (cs : List Char) : Option (List (List Char) × ℕ) :=
  p3try 2 cs <|> p3try 1 cs

/-- `re.finditer`: scan left to right, emit the leftmost match at each
position, resume after the matched text.  Fuel-based recursion (fuel is the
remaining text length; every step consumes at least one character). -/
def findIter (m : List Char → Option (List (List Char) × ℕ)) :
    ℕ → ℕ → List Char → List (ℕ × List Char × List (List Char))
  | 0, _, _ => []
  | Nat.succ fuel, pos, cs =>
    match cs with
    | [] => []
    | _ :: rest =>
      match m cs with
      | some (gs, len) =>
        (pos, cs.take len, gs) :: findIter m fuel (pos + len) (cs.drop len)
      | none => findIter m fuel (pos + 1) rest

/-! ### `ContractParser._extract_dates` -/

/-- Gregorian leap year, as `datetime` uses. -/
def isLeapYear (y : ℕ) : Bool :=
  y % 4 = 0 && (y % 100 ≠ 0 || y % 400 = 0)

/-- Days in a month (0 for an invalid month index). -/
def daysInMonth (y m : ℕ) : ℕ :=
  if m = 1 || m = 3 || m = 5 || m = 7 || m = 8 || m = 10 || m = 12 then 31
  else if m = 4 || m = 6 || m = 9 || m = 11 then 30
  else if m = 2 then (if isLeapYear y then 29 else 28)
  else 0

/-- `datetime(year, month, day)`: `some` on a valid Gregorian date in
Python's supported year range, `none` for the `ValueError` the code catches
and skips. -/
def datetimeMk (y m d : ℕ) : Option PyDate :=
  if 1 ≤ y && y ≤ 9999 && 1 ≤ m && m ≤ 12 && 1 ≤ d && d ≤ daysInMonth y m
  then some ⟨y, m, d⟩ else none

/-- One extracted date occurrence: the dict
`{'date': …, 'text': match.group(0), 'position': match.start()}`. -/
structure DateHit where
  date : PyDate
  text : String
  position : ℕ
deriving DecidableEq, Repr

/-- The month-name lookup table of `_extract_dates` (dead code in the
source: it sits under a `len(match.groups()) == 3` test that the two-group
third pattern can never satisfy). -/
def monthMap (s : List Char) : ℕ :=
  (([("jan", 1), ("fev", 2), ("mar", 3), ("abr", 4), ("mai", 5), ("jun", 6),
    ("jul", 7), ("ago", 8), ("set", 9), ("out", 10), ("nov", 11),
    ("dez", 12)] : List (String × ℕ)).lookup (String.mk s)).getD 1

/-- Turn the matches of one pattern into date hits, mirroring the loop body
of `_extract_dates`: a match contributes only if it has exactly three
groups; the date constructor's `ValueError` is caught and the match skipped.
`branch` selects the group interpretation (`'/' in pattern`, then
`'-' in pattern`, else the month branch). -/
def hitsOf (branch : ℕ) (ms : List (ℕ × List Char × List (List Char))) :
    List DateHit :=
  ms.filterMap fun (pos, txt, gs) =>
    if gs.length = 3 then
      match gs with
      | [g1, g2, g3] =>
        let dt :=
          if branch = 0 then
            datetimeMk (digitsToNat g3) (digitsToNat g2) (digitsToNat g1)
          else if branch = 1 then
            datetimeMk (digitsToNat g1) (digitsToNat g2) (digitsToNat g3)
          else
            datetimeMk (digitsToNat g3) (monthMap ((pyLowerList g2).take 3))
              (digitsToNat g1)
        dt.map fun d => ⟨d, String.mk txt, pos⟩
      | _ => none
    else none

/-- Position-ascending sort relation; Python's stable `sort` is matched by
Mathlib's stable `insertionSort`. -/
def posAsc (a b : DateHit) : Prop :=
  a.position ≤ b.position

instance : DecidableRel posAsc :=
  fun a b => inferInstanceAs (Decidable (a.position ≤ b.position))

/-- `ContractParser._extract_dates`: run the three patterns in order,
collect the valid dates with their positions, and sort by position. -/
def extract_dates (content : String) : List DateHit :=
  let cs := content.toList
  let n := cs.length + 1
  let hits :=
    hitsOf 0 (findIter matchP1 n 0 cs) ++
    hitsOf 1 (findIter matchP2 n 0 cs) ++
    hitsOf 2 (findIter matchP3 n 0 cs)
  List.insertionSort posAsc hits

example : extract_dates "15 de jan 2024" = [] := by decide
example : extract_dates "01/02/2024 and 2025-03-04" =
    [⟨⟨2024, 2, 1⟩, "01/02/2024", 0⟩, ⟨⟨2025, 3, 4⟩, "2025-03-04", 15⟩] := by
  decide

/-! ### `ContractParser._extract_sections_from_markdown`
(contract_parser.py, lines 241-280) -/

/-- Match a literal character sequence (case-sensitively), returning the
rest. -/
def dropLit : List Char → List Char → Option (List Char)
  | [], r => some r
  | l :: ls, c :: r => if c = l then dropLit ls r else none
  | _ :: _, [] => none

/-- The literal text the header regex actually requires.  The pattern
`^#{1,2,3}\s+(.+)$` contains the malformed counted repetition `(1,2,3)`
in braces, which Python's `re` treats as literal characters, so the pattern
matches a hash sign followed by the seven literal characters
brace, 1, comma, 2, comma, 3, brace. -/
def hdrLiteral : List Char :=
  ['#', Char.ofNat 123, '1', ',', '2', ',', '3', Char.ofNat 125]

/-- `re.match(r'^#{1,2,3}\s+(.+)$', line)`: the literal prefix, then `\s+`,
then the group `(.+)` running to the end of the line (`.` does not match a
newline, and split lines contain none).  When everything after the literal
is whitespace, backtracking leaves the last whitespace character to `(.+)`.
Returns the capture group. -/
def headerGroup (line : List Char) : Option (List Char) :=
  match dropLit hdrLiteral line with
  | none => none
  | some rest =>
    let (w, t) := rest.span pyIsSpace
    if w = [] then none
    else if t ≠ [] then some t
    else if 2 ≤ w.length then
      match w.getLast? with
      | some c => some [c]
      | none => none
    else none

/-- Python `content.split('\n')`. -/
def splitLines : List Char → List (List Char)
  | [] => [[]]
  | c :: r =>
    if c = '\n' then [] :: splitLines r
    else
      match splitLines r with
      | h :: t => (c :: h) :: t
      | [] => [[c]]

/-- Python dict assignment on an insertion-ordered association list:
update the value in place if the key exists, else append. -/
def dictInsert (secs : List (String × String)) (k v : String) :
    List (String × String) :=
  if (secs.map Prod.fst).contains k then
    secs.map (fun p => if p.1 = k then (k, v) else p)
  else secs ++ [(k, v)]

/-- `'\n'.join(current_content).strip()`. -/
def joinStrip (ls : List (List Char)) : String :=
  String.mk (pyStripList (List.intercalate ['\n'] ls))

/-- Flush the section being accumulated
(`if current_section and current_content: sections[...] = ...`). -/
def flushSection (cur : Option String) (content : List (List Char))
    (secs : List (String × String)) : List (String × String) :=
  match cur with
  | some s => if s ≠ "" ∧ content ≠ [] then dictInsert secs s
      (joinStrip content) else secs
  | none => secs

/-- The line loop of `_extract_sections_from_markdown`. -/
def sectionsLoop : List (List Char) → Option String → List (List Char) →
    List (String × String) → List (String × String)
  | [], cur, content, secs => flushSection cur content secs
  | line :: rest, cur, content, secs =>
    match headerGroup line with
    | some g =>
      sectionsLoop rest (some (String.mk (pyLowerList g))) []
        (flushSection cur content secs)
    | none =>
      match cur with
      | some s =>
        if s ≠ "" then sectionsLoop rest cur (content ++ [line]) secs
        else sectionsLoop rest cur content secs
      | none => sectionsLoop rest cur content secs

/-- One attempt of the fallback pattern `\*\*([^*]+):\*\*([^*\n]*)` at the
current position: `**`, a maximal non-`*` run that must end in `:` and have
at least one character before it, `**`, then a maximal `[^*\n]*` run.
Returns both groups and the consumed length. -/
def boldMatch (cs : List Char) : Option (List Char × List Char × ℕ) :=
  match cs with
  | '*' :: '*' :: r =>
    let (run, r2) := r.span (fun c => c ≠ '*')
    if 2 ≤ run.length ∧ run.getLast? = some ':' then
      match r2 with
      | '*' :: '*' :: r3 =>
        let (g2, _) := r3.span (fun c => c ≠ '*' && c ≠ '\n')
        some (run.dropLast, g2, 2 + run.length + 2 + g2.length)
      | _ => none
    else none
  | _ => none

/-- `re.finditer` for the bold-pair pattern. -/
def boldFind : ℕ → List Char → List (List Char × List Char)
  | 0, _ => []
  | Nat.succ fuel, cs =>
    match cs with
    | [] => []
    | _ :: rest =>
      match boldMatch cs with
      | some (g1, g2, len) => (g1, g2) :: boldFind fuel (cs.drop len)
      | none => boldFind fuel rest

/-- The bold-pair fallback: section name is the lowercased label, content
the stripped value, skipped when the stripped value is empty. -/
def boldSections (cs : List Char) : List (String × String) :=
  (boldFind (cs.length + 1) cs).foldl
    (fun secs p =>
      let content := pyStripList p.2
      if content ≠ [] then
        dictInsert secs (String.mk (pyLowerList p.1)) (String.mk content)
      else secs)
    []

/-- `ContractParser._extract_sections_from_markdown`: split into lines,
accumulate header-keyed sections, and fall back to bold pairs when none
were found. -/
def extract_sections_from_markdown (content : String) :
    List (String × String) :=
  let secs := sectionsLoop (splitLines content.toList) none [] []
  if secs = [] then boldSections content.toList else secs

example : extract_sections_from_markdown "# Pagamento\nO valor total." = [] :=
  by decide
example : extract_sections_from_markdown
    (String.mk (hdrLiteral ++ " Pagamento\nX".toList)) = [("pagamento", "X")] :=
  by decide
example : extract_sections_from_markdown "**Total:** 100" =
    [("total", "100")] := by decide

/-! ### The `Document` and `Contract` models (models/document.py) -/

/-- `ContractType` (models/document.py). -/
inductive ContractType where
  | msa | lsa | sow | pwo | cr | cnf
deriving DecidableEq, Repr

/-- `DocumentType` (only the two values the parser assigns matter here). -/
inductive DocumentType where
  | pdf | markdown | json | text
deriving DecidableEq, Repr

/-- `DocumentStatus`. -/
inductive DocumentStatus where
  | uploaded | processing | converted | analyzed | error
deriving DecidableEq, Repr

/-- The `Document` pydantic model.  Timestamps are embedded as strings
(ISO renderings); `uploaded_at` comes from the wall clock and is passed in
explicitly. -/
structure Document where
  id : String
  filename : String
  file_path : String
  document_type : DocumentType
  mime_type : String
  file_size : ℕ
  status : DocumentStatus
  uploaded_at : String
  processed_at : Option String := none
  content : Option String := none
  metadata : List (String × String) := []
  error_message : Option String := none
deriving DecidableEq, Repr

/-- Split a character list on a separator character (Python `str.split`). -/
def splitOnChar (sep : Char) : List Char → List (List Char)
  | [] => [[]]
  | c :: r =>
    if c = sep then [] :: splitOnChar sep r
    else
      match splitOnChar sep r with
      | h :: t => (c :: h) :: t
      | [] => [[c]]

/-- `pathlib.Path(p).name`: the final path component. -/
def pathName (p : String) : String :=
  String.mk (((splitOnChar '/' p.toList).getLast?).getD [])

/-- `pathlib.Path(p).suffix`: the extension of the final component — from
the last dot, provided it is neither the first nor the last character of
the name. -/
def pathSuffix (p : String) : String :=
  let n := (pathName p).toList
  match ((List.range n.length).filter (fun i => n.get? i = some '.')).getLast?
    with
  | some i =>
    if 0 < i ∧ i + 1 < n.length then String.mk (n.drop i) else ""
  | none => ""

/-- `ContractParser._create_document_model` (contract_parser.py, lines
485-499).  Python's process-seeded string `hash` and the
`datetime.utcnow()` default of `uploaded_at` are external inputs, passed in
as `pyHash` and `uploadedAt`.  `str(Path(p))` is embedded as `p` itself
(all paths handled by the pipeline are already in normal form). -/
def create_document_model (pyHash : String → ℤ) (uploadedAt : String)
    (file_path content : String) : Document :=
  { id := toString (pyHash file_path)
    filename := pathName file_path
    file_path := file_path
    document_type := if pathSuffix file_path = ".md" then DocumentType.markdown
      else DocumentType.json
    mime_type := if pathSuffix file_path = ".md" then "text/markdown"
      else "application/json"
    file_size := content.utf8ByteSize
    status := DocumentStatus.converted
    uploaded_at := uploadedAt
    content := some (String.mk (content.toList.take 1000))
    metadata := [("source", "marker"), ("parser", "contract_parser")] }

/-- The `extracted_entities` dict produced by
`_extract_entities_from_markdown`: optional keys are embedded as possibly
empty fields (a key is present in the Python dict exactly when its value is
non-empty, which is also what every truthiness test on it observes). -/
structure ExtractedEntities where
  emails : List String := []
  cnpj_cpf : List String := []
  tables : Option (ℕ × Bool) := none
  key_clauses : List String := []
deriving DecidableEq, Repr

/-- The metadata dict assembled by `_extract_metadata_from_markdown` /
`_extract_metadata_from_json`: every key is optional; a present string key
always holds the matched (possibly empty after stripping) text. -/
structure Metadata where
  title : Option String := none
  contract_number : Option String := none
  client_name : Option String := none
  vendor_name : Option String := none
  currency : Option String := none
  total_value : Option ℚ := none
  dates : List DateHit := []
  contract_type : Option ContractType := none
deriving DecidableEq, Repr

/-- Python truthiness of `dict.get(key)` for an optional string entry:
false for a missing key and for the empty string. -/
def truthyS (o : Option String) : Bool :=
  match o with
  | some s => s ≠ ""
  | none => false

/-- `ContractParser._calculate_confidence` (contract_parser.py, lines
544-577): six checks, each contributing at most 1.0, averaged. -/
def calculate_confidence (m : Metadata) (sections : List (String × String))
    (e : ExtractedEntities) : ℚ :=
  let s1 : ℚ := if truthyS m.title then 1 else 0
  let s2 : ℚ := if truthyS m.contract_number then 1 else 0
  let s3 : ℚ := if truthyS m.client_name && truthyS m.vendor_name then 1
    else 0
  let s4 : ℚ := if m.dates ≠ [] then 1 else 0
  let s5 : ℚ := if sections ≠ [] then
    min ((sections.length : ℚ) / 5) 1 else 0
  let s6 : ℚ := if e.key_clauses ≠ [] then
    min ((e.key_clauses.length : ℚ) / 3) 1 else 0
  (s1 + s2 + s3 + s4 + s5 + s6) / 6

/-- A value of the `Contract.entities` dict. -/
inductive EntVal where
  | secs (m : List (String × String))
  | extracted (e : ExtractedEntities)
  | meta (parser_version : String) (extraction_date : String)
      (confidence_score : ℚ)
deriving DecidableEq, Repr

/-- The `Contract` pydantic model. -/
structure Contract where
  document : Document
  contract_type : ContractType
  contract_number : String
  contract_name : String
  client_name : String
  vendor_name : String
  effective_date : Option PyDate := none
  expiration_date : Option PyDate := none
  total_value : Option ℚ := none
  currency : String := "USD"
  parent_contract_id : Option String := none
  child_contracts : List String := []
  entities : List (String × EntVal) := []
deriving DecidableEq, Repr

/-- `ContractParser._create_contract_model` (contract_parser.py, lines
501-542).  The wall-clock reading `datetime.now(timezone.utc).isoformat()`
stored in `parsing_metadata.extraction_date` is an external input, passed
in as `now`. -/
def create_contract_model (now : String) (document : Document)
    (m : Metadata) (sections : List (String × String))
    (entities : ExtractedEntities) : Contract :=
  { document := document
    contract_type := m.contract_type.getD ContractType.msa
    contract_number := m.contract_number.getD "N/A"
    contract_name := m.title.getD document.filename
    client_name := m.client_name.getD "N/A"
    vendor_name := m.vendor_name.getD "N/A"
    effective_date :=
      match m.dates with
      | d :: _ => some d.date
      | [] => none
    expiration_date :=
      match m.dates with
      | _ :: d :: _ => some d.date
      | _ => none
    total_value := m.total_value
    currency := m.currency.getD "USD"
    parent_contract_id := none
    child_contracts := []
    entities :=
      [("sections", EntVal.secs sections),
        ("extracted_entities", EntVal.extracted entities),
        ("parsing_metadata",
          EntVal.meta "1.0" now (calculate_confidence m sections entities))] }

/-! ### `SchemaValidator` (validation/schema.py) -/

/-- Python `'k' in dict` on the embedded entities dict. -/
def hasKeyE (l : List (String × EntVal)) (k : String) : Bool :=
  (l.map Prod.fst).contains k

/-- `SchemaValidator._validate_business_rules` (schema.py, lines 169-210):
the ordered list of business-rule violation messages. -/
def validate_business_rules (c : Contract) : List String :=
  (if c.contract_name = "" ∨ c.contract_name = "N/A" then
    ["Contract must have a valid name"] else []) ++
  (if c.contract_number = "" ∨ c.contract_number = "N/A" then
    ["Contract must have a valid contract number"] else []) ++
  (if c.client_name = "" ∨ c.client_name = "N/A" then
    ["Contract must have a valid client name"] else []) ++
  (if c.vendor_name = "" ∨ c.vendor_name = "N/A" then
    ["Contract must have a valid vendor name"] else []) ++
  (match c.effective_date, c.expiration_date with
    | some de, some dx =>
      if PyDate.le dx de then
        ["Effective date must be before expiration date"] else []
    | _, _ => []) ++
  (match c.total_value with
    | some v =>
      (if v ≤ 0 then ["Contract total value must be positive"] else []) ++
      (if c.currency = "" then
        ["Contract must have currency when value is specified"] else [])
    | none => []) ++
  (if c.entities ≠ [] then
    (if ¬hasKeyE c.entities "sections" then
      ["Contract entities must include sections"] else []) ++
    (if ¬hasKeyE c.entities "extracted_entities" then
      ["Contract entities must include extracted entities"] else []) ++
    (if ¬hasKeyE c.entities "parsing_metadata" then
      ["Contract entities must include parsing metadata"] else [])
  else [])

/-- `SchemaValidator.validate_contract` (schema.py, lines 102-127): pydantic
round-trip validation of a well-typed `Contract` (and of its `Document`)
always succeeds, so on the embedded model the public entry point returns
exactly the business-rule violations. -/
def validate_contract (c : Contract) : List String :=
  validate_business_rules c

/-! ### Helper lemmas -/

lemma mem_ite_list (p : Prop) [Decidable p] (a x : String) :
    (x ∈ if p then [a] else []) ↔ p ∧ x = a := by
  split <;> simp_all

lemma mem_ite_append (p : Prop) [Decidable p] (l : List String) (x : String) :
    (x ∈ if p then l else []) ↔ p ∧ x ∈ l := by
  split <;> simp_all

/-! ### Properties of `_deduplicate_entities` -/

lemma dedupLoop_sublist (dp : String → Option PyDate) (l : List Entity) :
    ∀ seen, List.Sublist (dedupLoop dp l seen) l := by
  induction l with
  | nil => intro seen; simp [dedupLoop]
  | cons e rest ih =>
    intro seen
    simp only [dedupLoop]
    split
    · exact (ih _).cons _
    · exact (ih _).cons₂ _

lemma dedupLoop_keys (dp : String → Option PyDate) (l : List Entity) :
    ∀ seen, ((dedupLoop dp l seen).map (entityKey dp)).Nodup ∧
      ∀ k ∈ (dedupLoop dp l seen).map (entityKey dp), k ∉ seen := by
  induction l with
  | nil => intro seen; simp [dedupLoop]
  | cons e rest ih =>
    intro seen
    simp only [dedupLoop]
    split
    · exact ih seen
    · rename_i hnot
      obtain ⟨ihn, ihs⟩ := ih (entityKey dp e :: seen)
      refine ⟨?_, ?_⟩
      · simp only [List.map_cons, List.nodup_cons]
        exact ⟨fun hmem => (ihs _ hmem) (List.mem_cons_self _ _), ihn⟩
      · intro k hk
        simp only [List.map_cons, List.mem_cons] at hk
        rcases hk with rfl | hk
        · exact hnot
        · exact fun hs => (ihs _ hk) (List.mem_cons_of_mem _ hs)

lemma dedupLoop_max (dp : String → Option PyDate) (l : List Entity)
    (hs : List.Sorted confDesc l) :
    ∀ seen, ∀ e ∈ l, entityKey dp e ∉ seen →
      ∃ f ∈ dedupLoop dp l seen, entityKey dp f = entityKey dp e ∧
        e.confidence ≤ f.confidence := by
  induction l with
  | nil => intro seen e he; exact absurd he (List.not_mem_nil e)
  | cons x rest ih =>
    have hs' : List.Sorted confDesc rest := hs.of_cons
    have hx : ∀ y ∈ rest, confDesc x y := List.rel_of_sorted_cons hs
    intro seen e he hke
    simp only [dedupLoop]
    split
    · rename_i hmem
      rcases List.mem_cons.mp he with rfl | her
      · exact absurd hmem hke
      · exact ih hs' seen e her hke
    · rename_i hnot
      rcases List.mem_cons.mp he with rfl | her
      · exact ⟨e, List.mem_cons_self _ _, rfl, le_refl _⟩
      · by_cases hk : entityKey dp e = entityKey dp x
        · exact ⟨x, List.mem_cons_self _ _, hk.symm, hx e her⟩
        · obtain ⟨f, hf, hfk, hfc⟩ := ih hs' (entityKey dp x :: seen) e her
            (by simp [hk, hke])
          exact ⟨f, List.mem_cons_of_mem _ hf, hfk, hfc⟩

/-- Claim C1: for every candidate list `L` (and any behaviour of the
external `dateutil` parser), `_deduplicate_entities` returns a list no
longer than `L`, whose `(normalized_text, entity_type)` keys are pairwise
distinct, such that every candidate of `L` — kept or discarded — is
represented by a kept candidate with the same key and at-least-as-high
confidence; and the empty input yields the empty output. -/
theorem deduplicate_entities_spec (dp : String → Option PyDate)
    (L : List Entity) :
    (deduplicate_entities dp L).length ≤ L.length ∧
    ((deduplicate_entities dp L).map (entityKey dp)).Nodup ∧
    (∀ e ∈ L, ∃ f ∈ deduplicate_entities dp L,
      entityKey dp f = entityKey dp e ∧ e.confidence ≤ f.confidence) ∧
    (L = [] → deduplicate_entities dp L = []) := by
  refine ⟨?_, ?_, ?_, ?_⟩
  · calc (deduplicate_entities dp L).length
        ≤ (List.insertionSort confDesc L).length :=
          ((dedupLoop_sublist dp _ _).length_le)
      _ = L.length := List.length_insertionSort _ _
  · exact (dedupLoop_keys dp _ _).1
  · intro e he
    exact dedupLoop_max dp _ (List.sorted_insertionSort confDesc L) []
      e ((List.mem_insertionSort confDesc).mpr he) (List.not_mem_nil _)
  · intro h; subst h; rfl

/-- Witness for C1 at a concrete list: the lower-confidence duplicate of a
key is represented by a kept entity of the same key with at least its
confidence. -/
theorem deduplicate_entities_spec_witness :
    ∃ f ∈ deduplicate_entities (fun _ => none)
        [⟨"B", "SUPPLIER", 0, 1, 1, []⟩, ⟨"b", "SUPPLIER", 0, 1, 2, []⟩],
      entityKey (fun _ => none) f =
        entityKey (fun _ => none) ⟨"B", "SUPPLIER", 0, 1, 1, []⟩ ∧
      (⟨"B", "SUPPLIER", 0, 1, 1, []⟩ : Entity).confidence ≤ f.confidence :=
  (deduplicate_entities_spec (fun _ => none) _).2.2.1 _ (by simp)

/-- Claim C2 (refuting evaluation): type-directed normalisation behaves as
specified for date-typed and generic entities, but on the `AMOUNT` entity
`"R$ 1.500,00"` it returns `" ."` — the character class `[^Vdt .,]` of the
source's `re.sub` deletes every digit (contradicting its own comment
`Remove tudo que não for dígito, ponto ou vírgula`), `float` then fails,
and the fallback returns the mutilated string instead of the original
lowercased text `"r$ 1.500,00"` (contradicting the comment
`usa o texto original`). -/
theorem normalize_entity_text_amount_bug :
    normalize_entity_text (fun _ => some ⟨2024, 1, 15⟩)
      ⟨"15 Jan 2024", "START_DATE", 0, 0, 1, []⟩ = "2024-01-15" ∧
    normalize_entity_text (fun _ => none)
      ⟨"15 Jan 2024", "START_DATE", 0, 0, 1, []⟩ = "15 jan 2024" ∧
    normalize_entity_text (fun _ => none)
      ⟨"  TechCorp INC ", "SUPPLIER", 0, 0, 1, []⟩ = "techcorp inc" ∧
    normalize_entity_text (fun _ => none)
      ⟨"R$ 1.500,00", "AMOUNT", 0, 0, 1, []⟩ = " ." ∧
    (" ." : String) ≠ pyStrip (pyLower "R$ 1.500,00") := by
  refine ⟨by decide, by decide, by decide, by decide, by decide⟩

/-- Evaluation lemma for `pyFloat` via its syntactic parse. -/
lemma pyFloat_eval (cs : List Char) (p : FloatParts)
    (h : pyFloatParse cs = some p) : pyFloat cs = some (partsVal p) := by
  simp [pyFloat, h]

/-- Core of the thousands-separator invariance: over raw character lists,
when the cleaned amount has both separators, deleting the dots from the
input does not change the parse. -/
lemma parse_amount_dotless_core (L : List Char)
    (hdot : '.' ∈ cleanAmount L) (hcomma : ',' ∈ cleanAmount L) :
    pyFloat (normalizeSeparators (cleanAmount L)) =
      pyFloat (normalizeSeparators
        (cleanAmount (L.filter (fun c => c ≠ '.')))) := by
  have hclean : cleanAmount (L.filter (fun c => c ≠ '.')) =
      (cleanAmount L).filter (fun c => c ≠ '.') := by
    simp only [cleanAmount, List.filter_filter]
    congr 1
    funext c
    exact Bool.and_comm _ _
  have hdot2 : '.' ∉ (cleanAmount L).filter (fun c => c ≠ '.') := by
    simp
  have hcomma2 : ',' ∈ (cleanAmount L).filter (fun c => c ≠ '.') := by
    simp [List.mem_filter, hcomma]
  have hc1 : (cleanAmount L).contains ',' = true :=
    List.elem_eq_true_of_mem hcomma
  have hc2 : (cleanAmount L).contains '.' = true :=
    List.elem_eq_true_of_mem hdot
  have hc3 : ((cleanAmount L).filter (fun c => c ≠ '.')).contains ','
      = true := List.elem_eq_true_of_mem hcomma2
  have hc4 : ((cleanAmount L).filter (fun c => c ≠ '.')).contains '.'
      = false := by simp
  rw [hclean, normalizeSeparators, normalizeSeparators, hc1, hc2, hc3, hc4]
  simp

/-- Claim C3: the amount parser returns 150000 on `"R$ 150.000,00"`, 50 on
`"US$ 50,000.00"`, and `none` (no exception) on `"invalid"`; and whenever
the cleaned amount string contains both `.` and `,`, every dot is treated
as a thousands separator — deleting the dots from the input does not change
the parse result (while the commas become the decimal point). -/
theorem parse_amount_spec :
    parse_amount "R$ 150.000,00" = some 150000 ∧
    parse_amount "US$ 50,000.00" = some 50 ∧
    parse_amount "invalid" = none ∧
    (∀ s : String, '.' ∈ cleanAmount s.toList → ',' ∈ cleanAmount s.toList →
      parse_amount s =
        parse_amount (String.mk (s.toList.filter (fun c => c ≠ '.')))) := by
  refine ⟨?_, ?_, ?_, ?_⟩
  · have h1 : normalizeSeparators (cleanAmount "R$ 150.000,00".toList) =
        "150000.00".toList := by decide
    have h2 : pyFloatParse "150000.00".toList =
        some ⟨false, "150000".toList, "00".toList, false, []⟩ := by decide
    have h3 : digitsToNat ['1', '5', '0', '0', '0', '0'] = 150000 := by
      decide
    have h4 : digitsToNat ['0', '0'] = 0 := by decide
    have h5 : digitsToNat ([] : List Char) = 0 := by decide
    rw [parse_amount, h1, pyFloat_eval _ _ h2]
    simp [partsVal, h3, h4, h5]
  · have h1 : normalizeSeparators (cleanAmount "US$ 50,000.00".toList) =
        "50.00000".toList := by decide
    have h2 : pyFloatParse "50.00000".toList =
        some ⟨false, "50".toList, "00000".toList, false, []⟩ := by decide
    have h3 : digitsToNat ['5', '0'] = 50 := by decide
    have h4 : digitsToNat ['0', '0', '0', '0', '0'] = 0 := by decide
    have h5 : digitsToNat ([] : List Char) = 0 := by decide
    rw [parse_amount, h1, pyFloat_eval _ _ h2]
    simp [partsVal, h3, h4, h5]
  · decide
  · intro s hdot hcomma
    exact parse_amount_dotless_core s.toList hdot hcomma

/-- Witness for C3's universal part at a concrete input. -/
theorem parse_amount_spec_witness :
    parse_amount "R$ 150.000,00" =
      parse_amount (String.mk
        ("R$ 150.000,00".toList.filter (fun c => c ≠ '.'))) :=
  parse_amount_spec.2.2.2 "R$ 150.000,00" (by decide) (by decide)

/-- Claim C4 (refuting evaluation): `_extract_dates` does parse the
`DD/MM/YYYY` and `YYYY-MM-DD` formats and sorts the results by position,
but a date written in the third, month-name format is matched and then
silently discarded: the third pattern has only two capture groups, so the
loop's `len(match.groups()) == 3` test is never satisfied and the
month-table branch is unreachable.  On `"15 de jan 2024"` the function
returns the empty list instead of the parsed date. -/
theorem extract_dates_month_format_bug :
    extract_dates "15 de jan 2024" = [] ∧
    matchP3 "15 de jan 2024".toList =
      some ([['1', '5'], ['2', '0', '2', '4']], 14) ∧
    extract_dates "01/02/2024 and 2025-03-04" =
      [⟨⟨2024, 2, 1⟩, "01/02/2024", 0⟩,
        ⟨⟨2025, 3, 4⟩, "2025-03-04", 15⟩] := by
  refine ⟨by decide, by decide, by decide⟩

/-- Claim C5 (refuting evaluation): the heading regex
`^#{1,2,3}\s+(.+)$` contains the malformed counted repetition, which
Python treats as the literal characters between the braces; hence an
ordinary markdown heading line is never recognised (first conjunct: a
heading-structured document yields no sections at all, not even through the
bold fallback), a line starting with the literal eight-character prefix is
the only way to produce a heading section (second conjunct), and the bold
`**Label:** value` fallback works as described (third conjunct). -/
theorem extract_sections_heading_bug :
    extract_sections_from_markdown "# Pagamento\nO valor total." = [] ∧
    extract_sections_from_markdown
      (String.mk (hdrLiteral ++ " Pagamento\nX".toList)) =
        [("pagamento", "X")] ∧
    extract_sections_from_markdown "**Total:** 100" = [("total", "100")] := by
  refine ⟨by decide, by decide, by decide⟩

set_option maxHeartbeats 800000 in
/-- Characterisation of membership in the business-rule violation list:
each message occurs exactly when its rule fires. -/
lemma mem_validate_business_rules (c : Contract) (x : String) :
    x ∈ validate_business_rules c ↔
      ((c.contract_name = "" ∨ c.contract_name = "N/A") ∧
        x = "Contract must have a valid name") ∨
      ((c.contract_number = "" ∨ c.contract_number = "N/A") ∧
        x = "Contract must have a valid contract number") ∨
      ((c.client_name = "" ∨ c.client_name = "N/A") ∧
        x = "Contract must have a valid client name") ∨
      ((c.vendor_name = "" ∨ c.vendor_name = "N/A") ∧
        x = "Contract must have a valid vendor name") ∨
      ((∃ de dx, c.effective_date = some de ∧ c.expiration_date = some dx ∧
          PyDate.le dx de = true) ∧
        x = "Effective date must be before expiration date") ∨
      ((∃ v, c.total_value = some v ∧ v ≤ 0) ∧
        x = "Contract total value must be positive") ∨
      ((c.total_value ≠ none ∧ c.currency = "") ∧
        x = "Contract must have currency when value is specified") ∨
      ((c.entities ≠ [] ∧ hasKeyE c.entities "sections" = false) ∧
        x = "Contract entities must include sections") ∨
      ((c.entities ≠ [] ∧ hasKeyE c.entities "extracted_entities" = false) ∧
        x = "Contract entities must include extracted entities") ∨
      ((c.entities ≠ [] ∧ hasKeyE c.entities "parsing_metadata" = false) ∧
        x = "Contract entities must include parsing metadata") := by
  rcases hde : c.effective_date with _ | de <;>
    rcases hdx : c.expiration_date with _ | dx <;>
    rcases hv : c.total_value with _ | v <;>
    simp [validate_business_rules, List.mem_append, mem_ite_list,
      mem_ite_append, hde, hdx, hv, and_assoc, or_assoc, and_or_left]

/-- Claim C6: the public validator reports the date-ordering violation
exactly when both dates are present and the effective date is not before
the expiration date. -/
theorem validate_contract_date_rule (c : Contract) :
    "Effective date must be before expiration date" ∈ validate_contract c ↔
      ∃ de dx, c.effective_date = some de ∧ c.expiration_date = some dx ∧
        PyDate.le dx de = true := by
  rw [validate_contract, mem_validate_business_rules]
  simp

/-- A concrete document used by the witnesses. -/
def sampleDoc : Document :=
  { id := "1", filename := "f.md", file_path := "f.md",
    document_type := DocumentType.markdown, mime_type := "text/markdown",
    file_size := 1, status := DocumentStatus.converted,
    uploaded_at := "2024-01-01T00:00:00+00:00" }

/-- Witness for C6: a contract whose effective date follows its expiration
date is reported. -/
theorem validate_contract_date_rule_witness :
    "Effective date must be before expiration date" ∈ validate_contract
      { document := sampleDoc, contract_type := ContractType.msa,
        contract_number := "C-1", contract_name := "N", client_name := "A",
        vendor_name := "B", effective_date := some ⟨2025, 1, 1⟩,
        expiration_date := some ⟨2024, 1, 1⟩ } :=
  (validate_contract_date_rule _).mpr
    ⟨⟨2025, 1, 1⟩, ⟨2024, 1, 1⟩, rfl, rfl, by decide⟩

lemma ite_one_bounds (p : Prop) [Decidable p] :
    0 ≤ (if p then (1 : ℚ) else 0) ∧ (if p then (1 : ℚ) else 0) ≤ 1 := by
  split <;> norm_num

lemma ite_min_bounds (p : Prop) [Decidable p] (q : ℚ) (hq : 0 ≤ q) :
    0 ≤ (if p then min q 1 else 0) ∧ (if p then min q 1 else 0) ≤ 1 := by
  split
  · exact ⟨le_min hq zero_le_one, min_le_right _ _⟩
  · norm_num

/-- Claim C7: the extraction confidence score is the unweighted average of
the fixed six-item checklist, always lies in `[0, 1]`, and with no sections
and no key clauses the two count-based items contribute nothing. -/
theorem calculate_confidence_spec (m : Metadata)
    (sections : List (String × String)) (e : ExtractedEntities) :
    calculate_confidence m sections e =
      ((if truthyS m.title then (1 : ℚ) else 0) +
        (if truthyS m.contract_number then 1 else 0) +
        (if truthyS m.client_name && truthyS m.vendor_name then 1 else 0) +
        (if m.dates ≠ [] then 1 else 0) +
        (if sections ≠ [] then min ((sections.length : ℚ) / 5) 1 else 0) +
        (if e.key_clauses ≠ [] then min ((e.key_clauses.length : ℚ) / 3) 1
          else 0)) / 6 ∧
    0 ≤ calculate_confidence m sections e ∧
    calculate_confidence m sections e ≤ 1 ∧
    (sections = [] → e.key_clauses = [] →
      calculate_confidence m sections e =
        ((if truthyS m.title then (1 : ℚ) else 0) +
          (if truthyS m.contract_number then 1 else 0) +
          (if truthyS m.client_name && truthyS m.vendor_name then 1 else 0) +
          (if m.dates ≠ [] then 1 else 0)) / 6) := by
  have heq : calculate_confidence m sections e =
      ((if truthyS m.title then (1 : ℚ) else 0) +
        (if truthyS m.contract_number then 1 else 0) +
        (if truthyS m.client_name && truthyS m.vendor_name then 1 else 0) +
        (if m.dates ≠ [] then 1 else 0) +
        (if sections ≠ [] then min ((sections.length : ℚ) / 5) 1 else 0) +
        (if e.key_clauses ≠ [] then min ((e.key_clauses.length : ℚ) / 3) 1
          else 0)) / 6 := rfl
  have hq5 : (0 : ℚ) ≤ (sections.length : ℚ) / 5 := by positivity
  have hq6 : (0 : ℚ) ≤ (e.key_clauses.length : ℚ) / 3 := by positivity
  obtain ⟨a1, b1⟩ := ite_one_bounds (truthyS m.title = true)
  obtain ⟨a2, b2⟩ := ite_one_bounds (truthyS m.contract_number = true)
  obtain ⟨a3, b3⟩ := ite_one_bounds
    ((truthyS m.client_name && truthyS m.vendor_name) = true)
  obtain ⟨a4, b4⟩ := ite_one_bounds (m.dates ≠ [])
  obtain ⟨a5, b5⟩ := ite_min_bounds (sections ≠ [])
    ((sections.length : ℚ) / 5) hq5
  obtain ⟨a6, b6⟩ := ite_min_bounds (e.key_clauses ≠ [])
    ((e.key_clauses.length : ℚ) / 3) hq6
  refine ⟨heq, ?_, ?_, ?_⟩
  · rw [heq]
    apply div_nonneg _ (by norm_num)
    linarith
  · rw [heq, div_le_one (by norm_num : (0 : ℚ) < 6)]
    linarith
  · intro h1 h2
    subst h1
    simp [calculate_confidence, h2]

/-- Witness for C7's conditional part: with no sections and no key clauses
only the four metadata items remain. -/
theorem calculate_confidence_spec_witness :
    calculate_confidence {} [] {} =
      ((if truthyS ({} : Metadata).title then (1 : ℚ) else 0) +
        (if truthyS ({} : Metadata).contract_number then 1 else 0) +
        (if truthyS ({} : Metadata).client_name &&
            truthyS ({} : Metadata).vendor_name then 1 else 0) +
        (if ({} : Metadata).dates ≠ [] then 1 else 0)) / 6 :=
  (calculate_confidence_spec {} [] {}).2.2.2 rfl rfl

/-- The extraction timestamp stored by the assembler inside
`entities['parsing_metadata']['extraction_date']`. -/
def getExtractionDate (c : Contract) : String :=
  match c.entities.lookup "parsing_metadata" with
  | some (EntVal.meta _ d _) => d
  | _ => ""

/-- Erase the wall-clock-derived fields of a contract: the document's
`uploaded_at` and the parsing metadata's `extraction_date`. -/
def scrubTimestamps (c : Contract) : Contract :=
  { c with
    document := { c.document with uploaded_at := "" }
    entities := c.entities.map (fun p =>
      match p with
      | (k, EntVal.meta v _ q) => (k, EntVal.meta v "" q)
      | other => other) }

/-- Claim C8 (counterexample): two runs of the assembly pipeline on
identical input at different wall-clock instants produce different
`Contract` records — `extraction_date` embeds the clock — so the pipeline
is not a function of the input text alone. -/
theorem create_contract_model_clock_counterexample :
    create_contract_model "2024-01-01T00:00:00+00:00"
        (create_document_model (fun _ => 0) "2024-01-01T00:00:00+00:00"
          "doc.md" "text") {} [] {} ≠
      create_contract_model "2024-01-01T00:00:01+00:00"
        (create_document_model (fun _ => 0) "2024-01-01T00:00:00+00:00"
          "doc.md" "text") {} [] {} := by
  intro h
  exact absurd (congrArg getExtractionDate h) (by decide)

/-- Claim C8 (amended): the assembled contract is a deterministic function
of the input together with the clock readings and the process hash seed —
runs differing only in clock readings agree on everything but the two
timestamp fields, and runs with equal clock readings agree exactly. -/
theorem create_contract_model_deterministic_modulo_clock
    (pyHash : String → ℤ) (up1 up2 now1 now2 path content : String)
    (m : Metadata) (s : List (String × String)) (e : ExtractedEntities) :
    scrubTimestamps (create_contract_model now1
        (create_document_model pyHash up1 path content) m s e) =
      scrubTimestamps (create_contract_model now2
        (create_document_model pyHash up2 path content) m s e) ∧
    (up1 = up2 → now1 = now2 →
      create_contract_model now1
          (create_document_model pyHash up1 path content) m s e =
        create_contract_model now2
          (create_document_model pyHash up2 path content) m s e) := by
  refine ⟨rfl, ?_⟩
  intro h1 h2
  rw [h1, h2]

/-- Witness for C8's amended claim at concrete clock readings. -/
theorem create_contract_model_deterministic_modulo_clock_witness :
    create_contract_model "T0"
        (create_document_model (fun _ => 0) "U0" "doc.md" "text") {} [] {} =
      create_contract_model "T0"
        (create_document_model (fun _ => 0) "U0" "doc.md" "text") {} [] {} :=
  (create_contract_model_deterministic_modulo_clock
    (fun _ => 0) "U0" "U0" "T0" "T0" "doc.md" "text" {} [] {}).2 rfl rfl

/-- Claim C9: every assembler-produced contract carries all three required
sub-keys in its entities map, so the validator's three missing-sub-key
violations are unreachable for such contracts. -/
theorem create_contract_model_entities_complete (now : String)
    (d : Document) (m : Metadata) (s : List (String × String))
    (e : ExtractedEntities) :
    hasKeyE (create_contract_model now d m s e).entities "sections"
        = true ∧
    hasKeyE (create_contract_model now d m s e).entities
        "extracted_entities" = true ∧
    hasKeyE (create_contract_model now d m s e).entities
        "parsing_metadata" = true ∧
    "Contract entities must include sections" ∉
      validate_contract (create_contract_model now d m s e) ∧
    "Contract entities must include extracted entities" ∉
      validate_contract (create_contract_model now d m s e) ∧
    "Contract entities must include parsing metadata" ∉
      validate_contract (create_contract_model now d m s e) := by
  have hk1 : hasKeyE (create_contract_model now d m s e).entities
      "sections" = true := rfl
  have hk2 : hasKeyE (create_contract_model now d m s e).entities
      "extracted_entities" = true := rfl
  have hk3 : hasKeyE (create_contract_model now d m s e).entities
      "parsing_metadata" = true := rfl
  refine ⟨hk1, hk2, hk3, ?_, ?_, ?_⟩ <;>
    simp [validate_contract, mem_validate_business_rules, hk1, hk2, hk3]

/-- Claim C10: when extraction finds no contract number, client or vendor,
the assembler fills those fields with the placeholder `"N/A"` (title falls
back to the document filename, currency to `"USD"`), and since `"N/A"` is
exactly the validator's placeholder sentinel, validation always reports the
three corresponding business-rule violations for such contracts. -/
theorem create_contract_model_na_defaults (now : String) (d : Document)
    (m : Metadata) (s : List (String × String)) (e : ExtractedEntities)
    (h1 : m.contract_number = none) (h2 : m.client_name = none)
    (h3 : m.vendor_name = none) :
    (create_contract_model now d m s e).contract_number = "N/A" ∧
    (create_contract_model now d m s e).client_name = "N/A" ∧
    (create_contract_model now d m s e).vendor_name = "N/A" ∧
    (m.title = none →
      (create_contract_model now d m s e).contract_name = d.filename) ∧
    (m.currency = none →
      (create_contract_model now d m s e).currency = "USD") ∧
    "Contract must have a valid contract number" ∈
      validate_contract (create_contract_model now d m s e) ∧
    "Contract must have a valid client name" ∈
      validate_contract (create_contract_model now d m s e) ∧
    "Contract must have a valid vendor name" ∈
      validate_contract (create_contract_model now d m s e) := by
  have hn : (create_contract_model now d m s e).contract_number = "N/A" := by
    simp [create_contract_model, h1]
  have hc : (create_contract_model now d m s e).client_name = "N/A" := by
    simp [create_contract_model, h2]
  have hv : (create_contract_model now d m s e).vendor_name = "N/A" := by
    simp [create_contract_model, h3]
  refine ⟨hn, hc, hv, ?_, ?_, ?_, ?_, ?_⟩
  · intro ht; simp [create_contract_model, ht]
  · intro hcur; simp [create_contract_model, hcur]
  · rw [validate_contract, mem_validate_business_rules]
    exact Or.inr (Or.inl ⟨Or.inr hn, rfl⟩)
  · rw [validate_contract, mem_validate_business_rules]
    exact Or.inr (Or.inr (Or.inl ⟨Or.inr hc, rfl⟩))
  · rw [validate_contract, mem_validate_business_rules]
    exact Or.inr (Or.inr (Or.inr (Or.inl ⟨Or.inr hv, rfl⟩)))

/-- Witness for C10 with empty extraction results. -/
theorem create_contract_model_na_defaults_witness :
    (create_contract_model "T0" sampleDoc {} [] {}).contract_number
        = "N/A" ∧
    (create_contract_model "T0" sampleDoc {} [] {}).client_name = "N/A" ∧
    (create_contract_model "T0" sampleDoc {} [] {}).vendor_name = "N/A" ∧
    (({} : Metadata).title = none →
      (create_contract_model "T0" sampleDoc {} [] {}).contract_name =
        sampleDoc.filename) ∧
    (({} : Metadata).currency = none →
      (create_contract_model "T0" sampleDoc {} [] {}).currency = "USD") ∧
    "Contract must have a valid contract number" ∈
      validate_contract (create_contract_model "T0" sampleDoc {} [] {}) ∧
    "Contract must have a valid client name" ∈
      validate_contract (create_contract_model "T0" sampleDoc {} [] {}) ∧
    "Contract must have a valid vendor name" ∈
      validate_contract (create_contract_model "T0" sampleDoc {} [] {}) :=
  create_contract_model_na_defaults "T0" sampleDoc {} [] {} rfl rfl rfl

/-- Witness for C9 at a concrete assembly. -/
theorem create_contract_model_entities_complete_witness :
    hasKeyE (create_contract_model "T0" sampleDoc {} [] {}).entities
        "sections" = true ∧
    hasKeyE (create_contract_model "T0" sampleDoc {} [] {}).entities
        "extracted_entities" = true ∧
    hasKeyE (create_contract_model "T0" sampleDoc {} [] {}).entities
        "parsing_metadata" = true ∧
    "Contract entities must include sections" ∉
      validate_contract (create_contract_model "T0" sampleDoc {} [] {}) ∧
    "Contract entities must include extracted entities" ∉
      validate_contract (create_contract_model "T0" sampleDoc {} [] {}) ∧
    "Contract entities must include parsing metadata" ∉
      validate_contract (create_contract_model "T0" sampleDoc {} [] {}) :=
  create_contract_model_entities_complete "T0" sampleDoc {} [] {}
